import Mathlib

/-!
# Verification of the hire.ai resilience / hybrid-search core

Shallow embedding of the algorithmic core of the hire.ai repository:

* `src/agents/core/resilience.py` — circuit breaker, token-bucket rate
  limiter, retry with backoff;
* `src/agents/tools/hybrid_search_tool.py` — dedup, relevance scoring and
  hybrid search coordination;
* `src/agents/job_search/agent.py` — the single-source agent's scoring;
* `src/agents/core/dependency_injection.py` — the service container.

Python floats appearing in time and score arithmetic are embedded as `ℚ`
(only orderings and exact sums of small decimal literals are at stake, so
rationals are faithful for every property proved here).  Wall-clock reads
(`time.time()`, `datetime.now()`) are passed in explicitly as a `now`
parameter.  Wrapped operations (the decorated Python callables) are passed
in as explicit outcome values, so "the wrapped operation was invoked" is an
observable output of the embedding.
-/

namespace HireAI

/-! ## Circuit breaker (`src/agents/core/resilience.py`, `CircuitBreaker`) -/

/-- `CircuitState` enum.  Python's `OPEN` is rendered `opened` (`open` is a
Lean keyword). -/
inductive CircuitState where
  | closed
  | opened
  | halfOpen
deriving DecidableEq, Repr

/-- `CircuitBreakerConfig` dataclass.  `expected_exception` is represented at
call sites by an `expected` flag on the failure outcome (the Python code only
ever tests membership of the raised exception in that class). -/
structure CircuitBreakerConfig where
  failure_threshold : ℕ := 5
  recovery_timeout : ℚ := 60
  success_threshold : ℕ := 3
deriving DecidableEq, Repr

/-- The mutable fields of a `CircuitBreaker` instance together with its
config. -/
structure CircuitBreaker where
  config : CircuitBreakerConfig
  state : CircuitState := .closed
  failure_count : ℕ := 0
  success_count : ℕ := 0
  last_failure_time : ℚ := 0
deriving DecidableEq, Repr

/-- `CircuitBreaker._should_attempt_reset`:
`(time.time() - self.last_failure_time) >= self.config.recovery_timeout`. -/
def CircuitBreaker.shouldAttemptReset (cb : CircuitBreaker) (now : ℚ) : Bool :=
  cb.config.recovery_timeout ≤ now - cb.last_failure_time

/-- `CircuitBreaker._on_success`. -/
def CircuitBreaker.onSuccess (cb : CircuitBreaker) : CircuitBreaker :=
  match cb.state with
  | .halfOpen =>
    let sc := cb.success_count + 1
    if cb.config.success_threshold ≤ sc then
      { cb with success_count := sc, state := .closed, failure_count := 0 }
    else
      { cb with success_count := sc }
  | .closed => { cb with failure_count := 0 }
  | .opened => cb

/-- `CircuitBreaker._on_failure`.  `now` stands for the `time.time()` read
inside the method. -/
def CircuitBreaker.onFailure (cb : CircuitBreaker) (now : ℚ) : CircuitBreaker :=
  let cb' := { cb with failure_count := cb.failure_count + 1, last_failure_time := now }
  match cb'.state with
  | .halfOpen => { cb' with state := .opened }
  | .closed =>
    if cb'.config.failure_threshold ≤ cb'.failure_count then
      { cb' with state := .opened }
    else cb'
  | .opened => cb'

/-- Outcome of one invocation of the wrapped Python callable: it either
returns a value or raises, and a raised exception either is or is not an
instance of `config.expected_exception`. -/
inductive OpResult (α : Type) where
  | success (a : α)
  | failure (expected : Bool) (e : String)
deriving DecidableEq, Repr

/-- What one call through the breaker-wrapped function produces. -/
inductive CBOutcome (α : Type) where
  /-- `CircuitBreakerError(message, service_name=...)` raised without calling
  the wrapped function. -/
  | rejected (message : String) (service_name : String)
  | succeeded (a : α)
  | failed (e : String)
deriving DecidableEq, Repr

/-- Result of one pass through `_sync_wrapper` / `_async_wrapper`:
the caller-visible outcome, the breaker state afterwards, and whether the
wrapped operation was actually invoked. -/
structure CBCallResult (α : Type) where
  outcome : CBOutcome α
  breaker : CircuitBreaker
  invoked : Bool
deriving DecidableEq, Repr

/-- The `try/except` body shared by `_sync_wrapper` and `_async_wrapper`:
invoke the wrapped function, then `_on_success` on return, `_on_failure` and
re-raise on an `expected_exception`, plain re-raise otherwise. -/
def CircuitBreaker.runOp (cb : CircuitBreaker) (now : ℚ) (op : OpResult α) :
    CBCallResult α :=
  match op with
  | .success a => ⟨.succeeded a, cb.onSuccess, true⟩
  | .failure true e => ⟨.failed e, cb.onFailure now, true⟩
  | .failure false e => ⟨.failed e, cb, true⟩

/-- `CircuitBreaker._sync_wrapper` / `_async_wrapper` (both wrappers execute
the identical logic; the only difference is `await`).  `funcName` is
`func.__name__`; `op` is the behaviour of the wrapped callable on this
invocation. -/
def CircuitBreaker.call (cb : CircuitBreaker) (now : ℚ) (funcName : String)
    (op : OpResult α) : CBCallResult α :=
  match cb.state with
  | .opened =>
    if cb.shouldAttemptReset now then
      CircuitBreaker.runOp { cb with state := .halfOpen, success_count := 0 } now op
    else
      ⟨.rejected ("Circuit breaker is OPEN for " ++ funcName) funcName, cb, false⟩
  | _ => cb.runOp now op

/-! ## Rate limiter (`src/agents/core/resilience.py`, `RateLimiter`) -/

/-- `RateLimitConfig` dataclass. -/
structure RateLimitConfig where
  max_calls : ℕ := 100
  time_window : ℚ := 60
  burst_size : ℕ := 10
deriving DecidableEq, Repr

/-- The mutable fields of a `RateLimiter` instance (`tokens` starts at
`config.max_calls`, `last_refill` at construction time). -/
structure RateLimiter where
  config : RateLimitConfig
  tokens : ℚ
  last_refill : ℚ
deriving DecidableEq, Repr

/-- `RateLimiter._refill`; `now` is the `time.time()` read. -/
def RateLimiter.refill (rl : RateLimiter) (now : ℚ) : RateLimiter :=
  let elapsed := now - rl.last_refill
  if 0 < elapsed then
    let tokens_to_add := (elapsed / rl.config.time_window) * rl.config.max_calls
    { rl with tokens := min (rl.config.max_calls : ℚ) (rl.tokens + tokens_to_add),
              last_refill := now }
  else rl

/-- `RateLimiter.acquire`: refill, then deduct if enough tokens remain.
Returns the Python return value together with the limiter afterwards. -/
def RateLimiter.acquire (rl : RateLimiter) (now : ℚ) (tokens : ℕ := 1) :
    Bool × RateLimiter :=
  let rl' := rl.refill now
  if (tokens : ℚ) ≤ rl'.tokens then
    (true, { rl' with tokens := rl'.tokens - tokens })
  else
    (false, rl')

/-! ## Retry with backoff (`src/agents/core/resilience.py`,
`_sync_retry_wrapper` / `_async_retry_wrapper`; both run the identical
policy, the only difference being `await` and which sleep is used — the
sleeps do not affect the invocation/outcome behaviour modelled here). -/

/-- Behaviour of the wrapped callable on one invocation: return a value,
raise an exception matched by `config.retryable_exceptions`, or raise any
other exception. -/
inductive RetryOutcome (α : Type) where
  | ok (a : α)
  | retryable (e : String)
  | fatal (e : String)
deriving DecidableEq, Repr

/-- The `for attempt in range(config.max_attempts)` loop.  `attempt` is the
current loop index and `fuel` the number of remaining iterations
(`config.max_attempts - attempt`), so `fuel = 1` exactly when
`attempt == config.max_attempts - 1`.  The result pairs the Python outcome
with the number of invocations of the wrapped callable; the `none` outcome is
the `raise last_exception` line after the loop, reachable only when
`max_attempts = 0` (where Python would raise `None`). -/
def retryLoop (op : ℕ → RetryOutcome α) (attempt : ℕ) :
    (fuel : ℕ) → Option (Except String α) × ℕ
  | 0 => (none, 0)
  | fuel + 1 =>
    match op attempt with
    | .ok a => (some (.ok a), 1)
    | .fatal e => (some (.error e), 1)
    | .retryable e =>
      if fuel = 0 then (some (.error e), 1)
      else
        let r := retryLoop op (attempt + 1) fuel
        (r.1, r.2 + 1)

/-- A retry-decorated callable: run the loop from attempt `0` with
`max_attempts` iterations available. -/
def retryRun (max_attempts : ℕ) (op : ℕ → RetryOutcome α) :
    Option (Except String α) × ℕ :=
  retryLoop op 0 max_attempts

/-! ## Job records and the hybrid search engine
(`src/agents/tools/hybrid_search_tool.py`) -/

/-- Python's `str.lower()` (ASCII case folding — no job field or keyword in
any property below involves non-ASCII letters). -/
def pyLower (s : String) : String :=
  ⟨s.data.map Char.toLower⟩

/-- Python's `str.strip()`: drop leading and trailing whitespace. -/
def pyStrip (s : String) : String :=
  ⟨(((s.data.dropWhile Char.isWhitespace).reverse.dropWhile Char.isWhitespace).reverse)⟩

/-- Python's substring test `needle in hay` on strings. -/
def strContains (hay needle : String) : Bool :=
  hay.data.tails.any needle.data.isPrefixOf

/-- A job dictionary, restricted to the fields the hybrid engine reads.
Remaining row fields (id, salary, link, source, keywords, …) are never
consulted by the code under verification.  `relevance_score` is `none` when
the key is absent from the dict.  `days_old` stands for the integer
`(datetime.now() - created_at).days` computed inside
`_calculate_relevance`; it is `none` when `created_at` is absent or fails to
parse (the bare `except: pass`). -/
structure Job where
  title : String := ""
  company : String := ""
  location : String := ""
  description : String := ""
  relevance_score : Option ℚ := none
  source_type : Option String := none
  days_old : Option ℤ := none
deriving DecidableEq, Repr

/-- `HybridSearchTool._generate_job_key`:
`f"{title.lower().strip()}|{company.lower().strip()}|{location.lower().strip()}"`. -/
def generateJobKey (job : Job) : String :=
  pyStrip (pyLower job.title) ++ "|" ++ pyStrip (pyLower job.company) ++ "|" ++
    pyStrip (pyLower job.location)

/-- `HybridSearchTool._calculate_relevance` (the hybrid coordinator's
scoring): per keyword +3.0 on a title hit, +1.5 on a description hit, +1.0 on
a company hit (all case-insensitive substring tests), then a recency bonus of
+1.0 when `days_old ≤ 7`, else +0.5 when `days_old ≤ 30`. -/
def calculateRelevance (job : Job) (keywords : List String) : ℚ :=
  let title := pyLower job.title
  let description := pyLower job.description
  let company := pyLower job.company
  let score := keywords.foldl (fun score keyword =>
    let keyword_lower := pyLower keyword
    let score := if strContains title keyword_lower then score + 3 else score
    let score := if strContains description keyword_lower then score + 1.5 else score
    if strContains company keyword_lower then score + 1 else score) 0
  match job.days_old with
  | some d => if d ≤ 7 then score + 1 else if d ≤ 30 then score + 0.5 else score
  | none => score

/-- `JobSearchAgent._calculate_relevance` (`src/agents/job_search/agent.py`):
per keyword +3.0 / +1.0 / +0.5 for title / description / company, then
normalized by the keyword count when the list is nonempty.  The caller
(`_rank_jobs`) passes keywords already lower-cased, matching the bare
`keyword in title` tests here. -/
def agentCalculateRelevance (job : Job) (keywords : List String) : ℚ :=
  let title := pyLower job.title
  let description := pyLower job.description
  let company := pyLower job.company
  let score := keywords.foldl (fun score keyword =>
    let score := if strContains title keyword then score + 3 else score
    let score := if strContains description keyword then score + 1 else score
    if strContains company keyword then score + 0.5 else score) 0
  if keywords.isEmpty then score else score / keywords.length

/-- The sort key `lambda x: x.get("relevance_score", 0)` used by
`_combine_and_rank_jobs`. -/
def sortKey (job : Job) : ℚ :=
  job.relevance_score.getD 0

/-- One dedup pass of `_combine_and_rank_jobs`: walk `jobs` keeping the first
occurrence of each key not already in `seen`, applying the in-place dict
mutation `mark` to each kept record.  Returns the kept records (in order)
together with the final `seen` set. -/
def addUnique (mark : Job → Job) : List Job → List String → List Job × List String
  | [], seen => ([], seen)
  | job :: rest, seen =>
    let job_key := generateJobKey job
    if job_key ∈ seen then addUnique mark rest seen
    else
      let r := addUnique mark rest (job_key :: seen)
      (mark job :: r.1, r.2)

/-- The mutation applied to kept database records:
`job["source_type"] = "database"`. -/
def markDatabase (job : Job) : Job :=
  { job with source_type := some "database" }

/-- The mutation applied to kept scraped records:
`job["source_type"] = "live_scraping"` and
`job["relevance_score"] = self._calculate_relevance(job, keywords)`. -/
def markScraped (keywords : List String) (job : Job) : Job :=
  { job with source_type := some "live_scraping",
             relevance_score := some (calculateRelevance job keywords) }

/-- `combined.sort(key=lambda x: x.get("relevance_score", 0), reverse=True)`.
Python's `list.sort` is a stable sort; the output of a stable sort is
uniquely determined by the key order and the input order, so the stable
insertion sort `List.insertionSort` with the relation "my key is ≥ yours"
computes exactly the same list. -/
def sortByRelevance (jobs : List Job) : List Job :=
  jobs.insertionSort (fun a b => sortKey b ≤ sortKey a)

/-- `HybridSearchTool._combine_and_rank_jobs`: database jobs first, then
scraped jobs, deduplicated by key with first occurrence winning, finally
stably sorted by descending relevance score. -/
def combineAndRankJobs (db_jobs scraping_jobs : List Job) (keywords : List String) :
    List Job :=
  let dbPass := addUnique markDatabase db_jobs []
  let scrapePass := addUnique (markScraped keywords) scraping_jobs dbPass.2
  sortByRelevance (dbPass.1 ++ scrapePass.1)

/-- `HybridSearchRequest` dataclass. -/
structure HybridSearchRequest where
  keywords : List String
  location : Option String := none
  max_results : ℕ := 50
  include_scraping : Bool := true
  scrape_threshold : ℕ := 10
  max_scrape_results : ℕ := 20
deriving DecidableEq, Repr

/-- Behaviour of the scraper collaborator on this call:
`scrape_jobs` returns a dict with a truthy `success` and a `jobs` list, or a
falsy `success` with an optional `error`, or raises. -/
inductive ScrapeOutcome where
  | success (jobs : List Job)
  | failed (error : Option String)
  | raised (e : String)
deriving DecidableEq, Repr

/-- The `source_distribution` dict built by `_generate_hybrid_insights`:
`source_distribution[t] = source_distribution.get(t, 0) + 1`, keys in first
appearance order. -/
def bumpCount : List (String × ℕ) → String → List (String × ℕ)
  | [], k => [(k, 1)]
  | (k', n) :: rest, k =>
    if k' = k then (k', n + 1) :: rest else (k', n) :: bumpCount rest k

/-- The source-distribution insight: counts of combined records keyed by
`job.get("source_type", "unknown")`. -/
def sourceDistribution (jobs : List Job) : List (String × ℕ) :=
  jobs.foldl (fun acc job => bumpCount acc (job.source_type.getD "unknown")) []

/-- The fields of the dict returned by `search_jobs_intelligently` that the
claims reference.  `source_distribution` is `none` exactly when
`_generate_hybrid_insights` returns early on an empty combined list (the
other insight entries — top companies/locations, relevance analysis,
recommendation — and the constant `performance` strings are not consulted by
any claim and are omitted). -/
structure SearchResponse where
  success : Bool
  jobs : List Job
  total_found : ℕ
  database_count : ℕ
  scraping_count : ℕ
  scraping_triggered : Bool
  scraping_error : Option String
  source_distribution : Option (List (String × ℕ))
deriving DecidableEq, Repr

/-- `HybridSearchTool.search_jobs_intelligently`.  The database collaborator's
reply `db_result.get("jobs", [])` is the input `db_jobs`; the scraper
collaborator's behaviour (consulted only when the threshold test triggers
scraping) is the input `scrape`. -/
def searchJobsIntelligently (request : HybridSearchRequest) (db_jobs : List Job)
    (scrape : ScrapeOutcome) : SearchResponse :=
  let db_count := db_jobs.length
  let should_scrape := request.include_scraping && decide (db_count < request.scrape_threshold)
  let scraped : List Job × Option String :=
    if should_scrape then
      match scrape with
      | .success jobs => (jobs, none)
      | .failed error => ([], error)
      | .raised e => ([], some e)
    else ([], none)
  let scraping_jobs := scraped.1
  let combined₀ := combineAndRankJobs db_jobs scraping_jobs request.keywords
  let combined :=
    if request.max_results < combined₀.length then combined₀.take request.max_results
    else combined₀
  { success := true
    jobs := combined
    total_found := combined.length
    database_count := db_count
    scraping_count := scraping_jobs.length
    scraping_triggered := should_scrape
    scraping_error := scraped.2
    source_distribution :=
      if combined.isEmpty then none else some (sourceDistribution combined) }

/-! ## Dependency injection container
(`src/agents/core/dependency_injection.py`)

Capabilities (Python `Type` objects used as registry keys) are embedded as
their names (`String`).  Object identity — the only thing the lifetime
contracts speak about — is embedded as an allocation counter: the container
carries `nextId`, and every run of the constructor
(`implementation_type(**kwargs)`) yields the current `nextId` and bumps it.
The registry and the lifetime caches are Python dicts read through single-key
lookups; they are embedded as association lists where registration prepends
(so `List.lookup` sees exactly the dict-overwrite semantics).  Factory
registrations (`register_factory`) are not consulted by any claim and are
omitted. -/

/-- `ServiceLifetime` enum. -/
inductive ServiceLifetime where
  | singleton
  | transient
  | scoped
deriving DecidableEq, Repr

/-- The `implementation` slot of a `ServiceDescriptor`: a class (whose
`__init__`, per `inspect.signature`, takes constructor parameters annotated
with the listed capability types, none of which carry defaults) or an
already-built object. -/
inductive ServiceImpl where
  | cls (deps : List String)
  | prebuilt (id : ℕ)
deriving DecidableEq, Repr

/-- `ServiceDescriptor` (the `service_type` key is stored alongside in the
registry association list). -/
structure ServiceDescriptor where
  lifetime : ServiceLifetime
  impl : ServiceImpl
deriving DecidableEq, Repr

/-- `ServiceContainer` state: `_services`, `_singletons`, `_scoped_instances`
and the allocation counter standing for object identity. -/
structure ServiceContainer where
  services : List (String × ServiceDescriptor) := []
  singletons : List (String × ℕ) := []
  scoped_instances : List (String × ℕ) := []
  nextId : ℕ := 0
deriving DecidableEq, Repr

/-- `ServiceContainer.register` — dict overwrite, embedded as a shadowing
prepend. -/
def ServiceContainer.register (c : ServiceContainer) (cap : String)
    (impl : ServiceImpl) (lifetime : ServiceLifetime) : ServiceContainer :=
  { c with services := (cap, ⟨lifetime, impl⟩) :: c.services }

/-- Python exceptions crossing the resolution API: `KeyError` (unregistered
capability) and the `RuntimeError` wrapper of `_create_with_injection`. -/
inductive DIError where
  | keyError (msg : String)
  | runtimeError (msg : String)
deriving DecidableEq, Repr

/-- Result of `get_required_service`: an instance (by identity) plus the
container state afterwards, an exception, or — since Python recursion is
embedded with an explicit stack-depth fuel — exhaustion of any finite depth
budget, the shallow rendering of unbounded recursion. -/
inductive ResolveRes where
  | ok (inst : ℕ) (c : ServiceContainer)
  | err (e : DIError)
  | outOfFuel
deriving DecidableEq, Repr

/-- Result of resolving a dependency list inside `_create_with_injection`. -/
inductive DepsRes where
  | ok (c : ServiceContainer)
  | err (e : DIError)
  | outOfFuel
deriving DecidableEq, Repr

/-- The dependency-resolution loop of `_create_with_injection`, parameterized
by the resolver used for each parameter.  Per parameter:
`dependency = self.get_service(param_type)` (which converts a `KeyError`
into `None`); with no default declared, a `None` dependency becomes
`ValueError("Cannot resolve dependency …")`, caught by the enclosing
`except` and re-raised as `RuntimeError`; any other exception propagates
(re-wrapped as `RuntimeError` with a nested message, which this embedding
leaves as the inner error). -/
def resolveDepsWith (res : ServiceContainer → String → ResolveRes) :
    ServiceContainer → List String → DepsRes
  | c, [] => .ok c
  | c, dep :: rest =>
    match res c dep with
    | .ok _ c' => resolveDepsWith res c' rest
    | .err (.keyError _) =>
      .err (.runtimeError ("Failed to create instance: cannot resolve dependency " ++ dep))
    | .err e => .err e
    | .outOfFuel => .outOfFuel

/-- `ServiceContainer._create_instance` (sans factories), parameterized by
the resolver for constructor injection: a pre-built implementation is
returned directly; a class has its dependencies resolved by
`_create_with_injection` and is then constructed (allocating a fresh
identity). -/
def createInstanceWith (res : ServiceContainer → String → ResolveRes)
    (c : ServiceContainer) (d : ServiceDescriptor) : ResolveRes :=
  match d.impl with
  | .prebuilt i => .ok i c
  | .cls deps =>
    match resolveDepsWith res c deps with
    | .ok c' => .ok c'.nextId { c' with nextId := c'.nextId + 1 }
    | .err e => .err e
    | .outOfFuel => .outOfFuel

/-- `ServiceContainer.get_required_service` with an explicit recursion-depth
fuel: unregistered capabilities raise `KeyError`; singleton and scoped
lifetimes consult and fill their caches; transient constructs afresh. -/
def getRequiredServiceF : ℕ → ServiceContainer → String → ResolveRes
  | 0, _, _ => .outOfFuel
  | fuel + 1, c, cap =>
    match c.services.lookup cap with
    | none => .err (.keyError ("Service " ++ cap ++ " is not registered"))
    | some d =>
      match d.lifetime with
      | .singleton =>
        match c.singletons.lookup cap with
        | some i => .ok i c
        | none =>
          match createInstanceWith (getRequiredServiceF fuel) c d with
          | .ok i c' => .ok i { c' with singletons := (cap, i) :: c'.singletons }
          | r => r
      | .scoped =>
        match c.scoped_instances.lookup cap with
        | some i => .ok i c
        | none =>
          match createInstanceWith (getRequiredServiceF fuel) c d with
          | .ok i c' => .ok i { c' with scoped_instances := (cap, i) :: c'.scoped_instances }
          | r => r
      | .transient => createInstanceWith (getRequiredServiceF fuel) c d

/-- Result of the optional variant `get_service`. -/
inductive OptServiceRes where
  | ok (inst : Option ℕ) (c : ServiceContainer)
  | err (e : DIError)
  | outOfFuel
deriving DecidableEq, Repr

/-- `ServiceContainer.get_service`: forward to `get_required_service`,
converting a `KeyError` into `None` (a `KeyError` unwinds the call before
any cache mutation, so the container is unchanged on that path). -/
def getServiceF (fuel : ℕ) (c : ServiceContainer) (cap : String) : OptServiceRes :=
  match getRequiredServiceF fuel c cap with
  | .ok i c' => .ok (some i) c'
  | .err (.keyError _) => .ok none c
  | .err e => .err e
  | .outOfFuel => .outOfFuel

/-! ## Claim C1: an OPEN breaker inside the cooldown rejects without
invoking the wrapped operation -/

/-- C1.  For every operation wrapped by a `CircuitBreaker` (the sync and
async wrappers run the identical logic), if the state is OPEN and the time
elapsed since `last_failure_time` is strictly less than `recovery_timeout`,
the call raises `CircuitBreakerError` naming the guarded operation, the
wrapped operation is not invoked, and the breaker's state and counters are
unchanged. -/
theorem open_breaker_in_cooldown_rejects {α : Type} (cb : CircuitBreaker)
    (now : ℚ) (funcName : String) (op : OpResult α)
    (hopen : cb.state = .opened)
    (hcool : now - cb.last_failure_time < cb.config.recovery_timeout) :
    cb.call now funcName op =
      ⟨.rejected ("Circuit breaker is OPEN for " ++ funcName) funcName, cb, false⟩ := by
  have hb : cb.shouldAttemptReset now = false := by
    simp [CircuitBreaker.shouldAttemptReset, not_le.mpr hcool]
  simp [CircuitBreaker.call, hopen, hb]

/-- Concrete instantiation of C1: a breaker opened at t = 50 with a 60 s
cooldown rejects a call at t = 100 untouched. -/
theorem open_breaker_in_cooldown_rejects_witness :
    CircuitBreaker.call ⟨⟨5, 60, 3⟩, .opened, 5, 0, 50⟩ 100 "scrape_jobs"
        (OpResult.success (1 : ℕ)) =
      ⟨.rejected ("Circuit breaker is OPEN for " ++ "scrape_jobs") "scrape_jobs",
        ⟨⟨5, 60, 3⟩, .opened, 5, 0, 50⟩, false⟩ :=
  open_breaker_in_cooldown_rejects _ _ _ _ rfl (by norm_num)

/-! ## Claim C2: the breaker's step relation is the specified state
machine -/

/-- In HALF_OPEN, successes accumulate in `success_count` and the
`success_threshold`-th consecutive success closes the breaker, clearing
`failure_count`. -/
theorem onSuccess_halfOpen_iter :
    ∀ (k : ℕ) (cb : CircuitBreaker), cb.state = .halfOpen →
      cb.config.success_threshold = cb.success_count + (k + 1) →
      ((CircuitBreaker.onSuccess)^[k + 1] cb).state = .closed ∧
      ((CircuitBreaker.onSuccess)^[k + 1] cb).failure_count = 0 := by
  intro k
  induction k with
  | zero =>
    rintro ⟨cfg, st, fc, sc, lt⟩ hst hthr
    dsimp at hst hthr
    subst hst
    have h1 : cfg.success_threshold ≤ sc + 1 := by omega
    simp [Function.iterate_one, CircuitBreaker.onSuccess, h1]
  | succ k ih =>
    rintro ⟨cfg, st, fc, sc, lt⟩ hst hthr
    dsimp at hst hthr
    subst hst
    have hstep : CircuitBreaker.onSuccess ⟨cfg, .halfOpen, fc, sc, lt⟩ =
        ⟨cfg, .halfOpen, fc, sc + 1, lt⟩ := by
      have hlt : ¬ cfg.success_threshold ≤ sc + 1 := by omega
      simp [CircuitBreaker.onSuccess, hlt]
    rw [Function.iterate_succ_apply, hstep]
    exact ih _ rfl (by dsimp; omega)

/-- C2.  The circuit breaker's step relation is exactly the specified state
machine: in CLOSED a failure increments `failure_count` (stamping
`last_failure_time`) and opens the breaker precisely when the count reaches
`failure_threshold`, while a success resets `failure_count` to 0 and stays
CLOSED; in OPEN, a call arriving at least `recovery_timeout` after
`last_failure_time` proceeds from HALF_OPEN with `success_count` reset to 0
(the check happens lazily inside the call wrapper); in HALF_OPEN,
`success_threshold` consecutive successes close the breaker clearing
`failure_count`, and any single failure reopens it. -/
theorem circuit_breaker_state_machine (now : ℚ) :
    (∀ cb : CircuitBreaker, cb.state = .closed →
      (cb.onFailure now).failure_count = cb.failure_count + 1 ∧
      (cb.onFailure now).last_failure_time = now ∧
      ((cb.onFailure now).state = .opened ↔
        cb.config.failure_threshold ≤ cb.failure_count + 1)) ∧
    (∀ cb : CircuitBreaker, cb.state = .closed →
      cb.onSuccess.failure_count = 0 ∧ cb.onSuccess.state = .closed) ∧
    (∀ (α : Type) (cb : CircuitBreaker) (funcName : String) (op : OpResult α),
      cb.state = .opened →
      cb.config.recovery_timeout ≤ now - cb.last_failure_time →
      cb.call now funcName op =
        CircuitBreaker.runOp { cb with state := .halfOpen, success_count := 0 } now op) ∧
    (∀ cb : CircuitBreaker, cb.state = .halfOpen → cb.success_count = 0 →
      1 ≤ cb.config.success_threshold →
      ((CircuitBreaker.onSuccess)^[cb.config.success_threshold] cb).state = .closed ∧
      ((CircuitBreaker.onSuccess)^[cb.config.success_threshold] cb).failure_count = 0) ∧
    (∀ cb : CircuitBreaker, cb.state = .halfOpen →
      (cb.onFailure now).state = .opened) := by
  refine ⟨?_, ?_, ?_, ?_, ?_⟩
  · rintro ⟨cfg, st, fc, sc, lt⟩ hst
    dsimp at hst
    subst hst
    by_cases hthr : cfg.failure_threshold ≤ fc + 1 <;>
      simp [CircuitBreaker.onFailure, hthr]
  · rintro ⟨cfg, st, fc, sc, lt⟩ hst
    dsimp at hst
    subst hst
    simp [CircuitBreaker.onSuccess]
  · intro α cb funcName op hst helapsed
    have hb : cb.shouldAttemptReset now = true := by
      simp [CircuitBreaker.shouldAttemptReset, helapsed]
    simp [CircuitBreaker.call, hst, hb]
  · intro cb hst hsc hthr
    obtain ⟨k, hk⟩ : ∃ k, cb.config.success_threshold = k + 1 :=
      ⟨cb.config.success_threshold - 1, by omega⟩
    rw [hk]
    exact onSuccess_halfOpen_iter k cb hst (by omega)
  · rintro ⟨cfg, st, fc, sc, lt⟩ hst
    dsimp at hst
    subst hst
    simp [CircuitBreaker.onFailure]

/-- Concrete instantiation of C2: with `failure_threshold = 2`, the second
consecutive failure in CLOSED opens the breaker. -/
theorem circuit_breaker_state_machine_witness :
    (CircuitBreaker.onFailure ⟨⟨2, 60, 3⟩, .closed, 1, 0, 0⟩ 7).failure_count = 1 + 1 ∧
    (CircuitBreaker.onFailure ⟨⟨2, 60, 3⟩, .closed, 1, 0, 0⟩ 7).last_failure_time = 7 ∧
    ((CircuitBreaker.onFailure ⟨⟨2, 60, 3⟩, .closed, 1, 0, 0⟩ 7).state = .opened ↔
      2 ≤ 1 + 1) :=
  (circuit_breaker_state_machine 7).1 ⟨⟨2, 60, 3⟩, .closed, 1, 0, 0⟩ rfl

/-! ## Claim C3: token-bucket `acquire` -/

/-- C3.  `acquire(n)` (n ≥ 1) first refills the bucket by
`(elapsed / time_window) * max_calls` tokens capped at `max_calls`, then
succeeds and deducts exactly `n` tokens when at least `n` are available and
otherwise fails leaving the (refilled) count unchanged; afterwards the count
lies in `[0, max_calls]`.  The clock and window hypotheses say the limiter is
used as constructed: `last_refill` was a past `time.time()` read and the
configured window is positive. -/
theorem rate_limiter_acquire_spec (rl : RateLimiter) (now : ℚ) (n : ℕ)
    (hn : 1 ≤ n) (h0 : 0 ≤ rl.tokens) (hcap : rl.tokens ≤ rl.config.max_calls)
    (hclock : rl.last_refill ≤ now) (hwin : 0 < rl.config.time_window) :
    (rl.refill now).tokens =
      min (rl.config.max_calls : ℚ)
        (rl.tokens + ((now - rl.last_refill) / rl.config.time_window) * rl.config.max_calls) ∧
    ((rl.acquire now n).1 = true ↔ (n : ℚ) ≤ (rl.refill now).tokens) ∧
    ((rl.acquire now n).1 = true →
      (rl.acquire now n).2.tokens = (rl.refill now).tokens - n) ∧
    ((rl.acquire now n).1 = false →
      (rl.acquire now n).2.tokens = (rl.refill now).tokens) ∧
    0 ≤ (rl.acquire now n).2.tokens ∧
    (rl.acquire now n).2.tokens ≤ rl.config.max_calls := by
  have hm : (0 : ℚ) ≤ rl.config.max_calls := by positivity
  have hacq : rl.acquire now n =
      if (n : ℚ) ≤ (rl.refill now).tokens then
        (true, { rl.refill now with tokens := (rl.refill now).tokens - n })
      else (false, rl.refill now) := rfl
  have hform : (rl.refill now).tokens =
      min (rl.config.max_calls : ℚ)
        (rl.tokens + ((now - rl.last_refill) / rl.config.time_window) * rl.config.max_calls) := by
    unfold RateLimiter.refill
    dsimp only
    split
    · rfl
    · rename_i h
      have hz : now - rl.last_refill = 0 := by
        have h2 := sub_nonneg.mpr hclock
        have h3 := not_lt.mp h
        linarith
      simp [hz, min_eq_right hcap]
  have h0' : 0 ≤ (rl.refill now).tokens := by
    rw [hform]
    have hx : (0 : ℚ) ≤ ((now - rl.last_refill) / rl.config.time_window) * rl.config.max_calls := by
      have he : (0 : ℚ) ≤ now - rl.last_refill := sub_nonneg.mpr hclock
      positivity
    exact le_min hm (by linarith)
  have hcap' : (rl.refill now).tokens ≤ rl.config.max_calls := by
    rw [hform]
    exact min_le_left _ _
  by_cases hc : (n : ℚ) ≤ (rl.refill now).tokens
  · refine ⟨hform, by simp [hacq, hc], by simp [hacq, hc], ?_, ?_, ?_⟩
    · intro hfalse
      simp [hacq, hc] at hfalse
    · simp only [hacq, hc, if_pos]
      linarith
    · simp only [hacq, hc, if_pos]
      have hnn : (0 : ℚ) ≤ n := by positivity
      linarith
  · refine ⟨hform, by simp [hacq, hc], ?_, by simp [hacq, hc], ?_, ?_⟩
    · intro htrue
      simp [hacq, hc] at htrue
    · simpa [hacq, hc] using h0'
    · simpa [hacq, hc] using hcap'

/-- Concrete instantiation of C3 (the spec's `max_calls = 5`,
`time_window = 1` scenario, immediate call): the bucket formula, the
success/deduction behaviour and the `[0, max_calls]` bounds all hold. -/
theorem rate_limiter_acquire_spec_witness :
    ((RateLimiter.mk ⟨5, 1, 10⟩ 5 0).refill 0).tokens =
      min ((5 : ℕ) : ℚ) (5 + ((0 - 0) / 1) * (5 : ℕ)) ∧
    (((RateLimiter.mk ⟨5, 1, 10⟩ 5 0).acquire 0 1).1 = true ↔
      ((1 : ℕ) : ℚ) ≤ ((RateLimiter.mk ⟨5, 1, 10⟩ 5 0).refill 0).tokens) ∧
    (((RateLimiter.mk ⟨5, 1, 10⟩ 5 0).acquire 0 1).1 = true →
      ((RateLimiter.mk ⟨5, 1, 10⟩ 5 0).acquire 0 1).2.tokens =
        ((RateLimiter.mk ⟨5, 1, 10⟩ 5 0).refill 0).tokens - 1) ∧
    (((RateLimiter.mk ⟨5, 1, 10⟩ 5 0).acquire 0 1).1 = false →
      ((RateLimiter.mk ⟨5, 1, 10⟩ 5 0).acquire 0 1).2.tokens =
        ((RateLimiter.mk ⟨5, 1, 10⟩ 5 0).refill 0).tokens) ∧
    0 ≤ ((RateLimiter.mk ⟨5, 1, 10⟩ 5 0).acquire 0 1).2.tokens ∧
    ((RateLimiter.mk ⟨5, 1, 10⟩ 5 0).acquire 0 1).2.tokens ≤ (5 : ℕ) :=
  rate_limiter_acquire_spec ⟨⟨5, 1, 10⟩, 5, 0⟩ 0 1 (by norm_num) (by norm_num)
    (by norm_num) (by norm_num) (by norm_num)

/-! ## Claim C4: retry_with_backoff invocation counts and propagation -/

/-- If every remaining attempt raises retryably, the loop runs them all and
re-raises the exception of the last attempt. -/
theorem retryLoop_all_retryable (op : ℕ → RetryOutcome α) (es : ℕ → String) :
    ∀ (fuel attempt : ℕ), 1 ≤ fuel →
      (∀ j, j < fuel → op (attempt + j) = .retryable (es (attempt + j))) →
      retryLoop op attempt fuel = (some (.error (es (attempt + fuel - 1))), fuel) := by
  intro fuel
  induction fuel with
  | zero => omega
  | succ f ih =>
    intro attempt _ hall
    have h0 : op attempt = .retryable (es attempt) := by
      have := hall 0 (by omega)
      simpa using this
    rcases Nat.eq_zero_or_pos f with hf | hf
    · subst hf
      simp [retryLoop, h0]
    · have hrec := ih (attempt + 1) hf (fun j hj => by
        have := hall (j + 1) (by omega)
        have harith : attempt + (j + 1) = attempt + 1 + j := by omega
        rwa [harith] at this)
      have hfne : f ≠ 0 := by omega
      have harith2 : attempt + 1 + f - 1 = attempt + (f + 1) - 1 := by omega
      simp [retryLoop, h0, hfne, hrec, harith2]

/-- If the first `k` remaining attempts raise retryably and attempt `k`
succeeds (with `k` strictly inside the budget), the loop returns the success
value after exactly `k + 1` invocations. -/
theorem retryLoop_eventually_ok (op : ℕ → RetryOutcome α) (a : α) :
    ∀ (k fuel attempt : ℕ), k < fuel →
      (∀ j, j < k → ∃ e, op (attempt + j) = .retryable e) →
      op (attempt + k) = .ok a →
      retryLoop op attempt fuel = (some (.ok a), k + 1) := by
  intro k
  induction k with
  | zero =>
    intro fuel attempt hk _ hok
    obtain ⟨f, rfl⟩ : ∃ f, fuel = f + 1 := ⟨fuel - 1, by omega⟩
    simp only [Nat.add_zero] at hok
    simp [retryLoop, hok]
  | succ k ih =>
    intro fuel attempt hk hretry hok
    obtain ⟨f, rfl⟩ : ∃ f, fuel = f + 1 := ⟨fuel - 1, by omega⟩
    obtain ⟨e, he⟩ : ∃ e, op attempt = .retryable e := by
      have := hretry 0 (by omega)
      simpa using this
    have hrec := ih f (attempt + 1) (by omega)
      (fun j hj => by
        have := hretry (j + 1) (by omega)
        have harith : attempt + (j + 1) = attempt + 1 + j := by omega
        rwa [harith] at this)
      (by
        have harith : attempt + (k + 1) = attempt + 1 + k := by omega
        rwa [harith] at hok)
    have hfne : f ≠ 0 := by omega
    simp [retryLoop, he, hfne, hrec]

/-- C4.  Under `max_attempts = N ≥ 1`: an always-retryably-failing operation
is invoked exactly `N` times and the last exception is re-raised unchanged;
an operation that fails retryably `k < N` times and then succeeds is invoked
exactly `k + 1` times and its value is returned; an operation raising a
non-retryable exception propagates it immediately after exactly one
invocation. -/
theorem retry_with_backoff_spec {α : Type} (N : ℕ) (op : ℕ → RetryOutcome α)
    (hN : 1 ≤ N) :
    (∀ es : ℕ → String, (∀ i, i < N → op i = .retryable (es i)) →
      retryRun N op = (some (.error (es (N - 1))), N)) ∧
    (∀ (k : ℕ) (a : α), k < N → (∀ j, j < k → ∃ e, op j = .retryable e) →
      op k = .ok a → retryRun N op = (some (.ok a), k + 1)) ∧
    (∀ e, op 0 = .fatal e → retryRun N op = (some (.error e), 1)) := by
  refine ⟨?_, ?_, ?_⟩
  · intro es hall
    have := retryLoop_all_retryable op es N 0 hN (fun j hj => by simpa using hall j hj)
    simpa [retryRun] using this
  · intro k a hk hretry hok
    have := retryLoop_eventually_ok op a k N 0 hk
      (fun j hj => by simpa using hretry j hj) (by simpa using hok)
    simpa [retryRun] using this
  · intro e hfatal
    obtain ⟨m, rfl⟩ : ∃ m, N = m + 1 := ⟨N - 1, by omega⟩
    simp [retryRun, retryLoop, hfatal]

/-- Concrete instantiation of C4 (the spec's test property): an operation
failing retryably twice then succeeding, under `max_attempts = 3`, returns
the success value having been invoked exactly 3 times. -/
theorem retry_with_backoff_spec_witness :
    retryRun 3 (fun i => if i < 2 then RetryOutcome.retryable "boom" else .ok (42 : ℕ)) =
      (some (.ok 42), 2 + 1) :=
  (retry_with_backoff_spec 3 _ (by norm_num)).2.1 2 42 (by norm_num)
    (fun j hj => ⟨"boom", by simp [hj]⟩) (by simp)

/-! ## Dedup-pass lemmas shared by the hybrid-search claims -/

theorem generateJobKey_markDatabase (j : Job) :
    generateJobKey (markDatabase j) = generateJobKey j := rfl

theorem generateJobKey_markScraped (kws : List String) (j : Job) :
    generateJobKey (markScraped kws j) = generateJobKey j := rfl

theorem addUnique_subset_seen (mark : Job → Job) :
    ∀ (jobs : List Job) (seen : List String), seen ⊆ (addUnique mark jobs seen).2 := by
  intro jobs
  induction jobs with
  | nil => intro seen; simp [addUnique]
  | cons x rest ih =>
    intro seen
    by_cases h : generateJobKey x ∈ seen
    · simpa [addUnique, h] using ih seen
    · simp only [addUnique, h, if_false]
      exact fun a ha => ih (generateJobKey x :: seen) (List.mem_cons_of_mem _ ha)

theorem addUnique_mem_key_not_seen (mark : Job → Job)
    (hm : ∀ j, generateJobKey (mark j) = generateJobKey j) :
    ∀ (jobs : List Job) (seen : List String) (j : Job),
      j ∈ (addUnique mark jobs seen).1 → generateJobKey j ∉ seen := by
  intro jobs
  induction jobs with
  | nil => intro seen j hj; simp [addUnique] at hj
  | cons x rest ih =>
    intro seen j hj
    by_cases h : generateJobKey x ∈ seen
    · rw [addUnique] at hj
      simp only [h, if_true] at hj
      exact ih seen j hj
    · rw [addUnique] at hj
      simp only [h, if_false, List.mem_cons] at hj
      rcases hj with rfl | hj
      · rw [hm]; exact h
      · have := ih (generateJobKey x :: seen) j hj
        exact fun hin => this (List.mem_cons_of_mem _ hin)

theorem addUnique_mem_key_in_final (mark : Job → Job)
    (hm : ∀ j, generateJobKey (mark j) = generateJobKey j) :
    ∀ (jobs : List Job) (seen : List String) (j : Job),
      j ∈ (addUnique mark jobs seen).1 → generateJobKey j ∈ (addUnique mark jobs seen).2 := by
  intro jobs
  induction jobs with
  | nil => intro seen j hj; simp [addUnique] at hj
  | cons x rest ih =>
    intro seen j hj
    by_cases h : generateJobKey x ∈ seen
    · rw [addUnique] at hj ⊢
      simp only [h, if_true] at hj ⊢
      exact ih seen j hj
    · rw [addUnique] at hj ⊢
      simp only [h, if_false, List.mem_cons] at hj ⊢
      rcases hj with rfl | hj
      · rw [hm]
        exact addUnique_subset_seen mark rest _ (List.mem_cons_self _ _)
      · exact ih (generateJobKey x :: seen) j hj

theorem addUnique_keys_nodup (mark : Job → Job)
    (hm : ∀ j, generateJobKey (mark j) = generateJobKey j) :
    ∀ (jobs : List Job) (seen : List String),
      ((addUnique mark jobs seen).1.map generateJobKey).Nodup := by
  intro jobs
  induction jobs with
  | nil => intro seen; simp [addUnique]
  | cons x rest ih =>
    intro seen
    by_cases h : generateJobKey x ∈ seen
    · rw [addUnique]
      simp only [h, if_true]
      exact ih seen
    · rw [addUnique]
      simp only [h, if_false, List.map_cons, List.nodup_cons]
      refine ⟨?_, ih (generateJobKey x :: seen)⟩
      intro hmem
      obtain ⟨j, hj, hkey⟩ := List.mem_map.mp hmem
      have := addUnique_mem_key_not_seen mark hm rest (generateJobKey x :: seen) j hj
      rw [hkey, hm] at this
      exact this (List.mem_cons_self _ _)

theorem addUnique_provenance (mark : Job → Job) :
    ∀ (jobs : List Job) (seen : List String) (j : Job),
      j ∈ (addUnique mark jobs seen).1 → ∃ j0, j0 ∈ jobs ∧ j = mark j0 := by
  intro jobs
  induction jobs with
  | nil => intro seen j hj; simp [addUnique] at hj
  | cons x rest ih =>
    intro seen j hj
    by_cases h : generateJobKey x ∈ seen
    · rw [addUnique] at hj
      simp only [h, if_true] at hj
      obtain ⟨j0, hj0, rfl⟩ := ih seen j hj
      exact ⟨j0, List.mem_cons_of_mem _ hj0, rfl⟩
    · rw [addUnique] at hj
      simp only [h, if_false, List.mem_cons] at hj
      rcases hj with rfl | hj
      · exact ⟨x, List.mem_cons_self _ _, rfl⟩
      · obtain ⟨j0, hj0, rfl⟩ := ih (generateJobKey x :: seen) j hj
        exact ⟨j0, List.mem_cons_of_mem _ hj0, rfl⟩

theorem addUnique_key_covered (mark : Job → Job) :
    ∀ (jobs : List Job) (seen : List String) (d : Job),
      d ∈ jobs → generateJobKey d ∈ (addUnique mark jobs seen).2 := by
  intro jobs
  induction jobs with
  | nil => intro seen d hd; simp at hd
  | cons x rest ih =>
    intro seen d hd
    by_cases h : generateJobKey x ∈ seen
    · rw [addUnique]
      simp only [h, if_true]
      rcases List.mem_cons.mp hd with rfl | hd
      · exact addUnique_subset_seen mark rest seen h
      · exact ih seen d hd
    · rw [addUnique]
      simp only [h, if_false]
      rcases List.mem_cons.mp hd with rfl | hd
      · exact addUnique_subset_seen mark rest _ (List.mem_cons_self _ _)
      · exact ih (generateJobKey x :: seen) _ hd

theorem addUnique_representative (mark : Job → Job)
    (hm : ∀ j, generateJobKey (mark j) = generateJobKey j) :
    ∀ (jobs : List Job) (seen : List String) (d : Job),
      d ∈ jobs → generateJobKey d ∉ seen →
      ∃ j, j ∈ (addUnique mark jobs seen).1 ∧ generateJobKey j = generateJobKey d := by
  intro jobs
  induction jobs with
  | nil => intro seen d hd; simp at hd
  | cons x rest ih =>
    intro seen d hd hnot
    by_cases h : generateJobKey x ∈ seen
    · rw [addUnique]
      simp only [h, if_true]
      rcases List.mem_cons.mp hd with rfl | hd
      · exact absurd h hnot
      · exact ih seen d hd hnot
    · rw [addUnique]
      simp only [h, if_false, List.mem_cons]
      rcases List.mem_cons.mp hd with rfl | hd
      · exact ⟨mark d, Or.inl rfl, hm d⟩
      · by_cases hkey : generateJobKey d = generateJobKey x
        · exact ⟨mark x, Or.inl rfl, by rw [hm, hkey]⟩
        · obtain ⟨j, hj, hk⟩ := ih (generateJobKey x :: seen) d hd (by
            simp only [List.mem_cons]
            push_neg
            exact ⟨hkey, hnot⟩)
          exact ⟨j, Or.inr hj, hk⟩

/-! ## Claim C5: dedup keys are unique and database records win ties -/

/-- C5.  In the combined list of `_combine_and_rank_jobs`, the dedup key (the
lower-cased, stripped title|company|location string) is unique across the
output; every database record has a representative with its key in the
output; and every output record sharing a key with a database record is the
database-sourced one (all database records are inserted before any scraped
record and the first occurrence of a key wins). -/
theorem combine_dedup_db_priority (db_jobs scraping_jobs : List Job)
    (keywords : List String) :
    ((combineAndRankJobs db_jobs scraping_jobs keywords).map generateJobKey).Nodup ∧
    (∀ d ∈ db_jobs, ∃ j ∈ combineAndRankJobs db_jobs scraping_jobs keywords,
      generateJobKey j = generateJobKey d) ∧
    (∀ d ∈ db_jobs, ∀ j ∈ combineAndRankJobs db_jobs scraping_jobs keywords,
      generateJobKey j = generateJobKey d → j.source_type = some "database") := by
  have hmd : ∀ j, generateJobKey (markDatabase j) = generateJobKey j :=
    generateJobKey_markDatabase
  have hms : ∀ j, generateJobKey (markScraped keywords j) = generateJobKey j :=
    generateJobKey_markScraped keywords
  have hout : combineAndRankJobs db_jobs scraping_jobs keywords =
      sortByRelevance ((addUnique markDatabase db_jobs []).1 ++
        (addUnique (markScraped keywords) scraping_jobs
          (addUnique markDatabase db_jobs []).2).1) := rfl
  have hperm : List.Perm (combineAndRankJobs db_jobs scraping_jobs keywords)
      ((addUnique markDatabase db_jobs []).1 ++
        (addUnique (markScraped keywords) scraping_jobs
          (addUnique markDatabase db_jobs []).2).1) := by
    rw [hout]
    exact List.perm_insertionSort _ _
  refine ⟨?_, ?_, ?_⟩
  · refine ((hperm.map generateJobKey).nodup_iff).mpr ?_
    rw [List.map_append]
    refine List.nodup_append.mpr ⟨addUnique_keys_nodup _ hmd _ _,
      addUnique_keys_nodup _ hms _ _, ?_⟩
    intro a ha hb
    obtain ⟨jA, hjA, rfl⟩ := List.mem_map.mp ha
    obtain ⟨jB, hjB, hkeyB⟩ := List.mem_map.mp hb
    have h1 := addUnique_mem_key_in_final _ hmd db_jobs [] jA hjA
    have h2 := addUnique_mem_key_not_seen _ hms scraping_jobs _ jB hjB
    rw [hkeyB] at h2
    exact h2 h1
  · intro d hd
    obtain ⟨j, hj, hkey⟩ :=
      addUnique_representative _ hmd db_jobs [] d hd (List.not_mem_nil _)
    exact ⟨j, hperm.mem_iff.mpr (List.mem_append_left _ hj), hkey⟩
  · intro d hd j hj hkey
    rcases List.mem_append.mp (hperm.mem_iff.mp hj) with hjA | hjB
    · obtain ⟨j0, _, rfl⟩ := addUnique_provenance markDatabase db_jobs [] j hjA
      rfl
    · exfalso
      have h2 := addUnique_mem_key_not_seen _ hms scraping_jobs _ j hjB
      have h1 := addUnique_key_covered markDatabase db_jobs [] d hd
      rw [hkey] at h2
      exact h2 h1

/-- Concrete instantiation of C5 (the spec's dedup test property): a database
record and a scraped record with the same (title, company, location) but
different descriptions — the combined keys are unique and the shared-key
record in the output is the database-sourced one. -/
theorem combine_dedup_db_priority_witness :
    ((combineAndRankJobs
        [{ title := "Python Developer", company := "Acme", location := "Pune",
           description := "stored" }]
        [{ title := "Python Developer", company := "Acme", location := "Pune",
           description := "scraped" }] []).map generateJobKey).Nodup ∧
    ({ title := "Python Developer", company := "Acme", location := "Pune",
       description := "stored", source_type := some "database" } : Job).source_type =
      some "database" :=
  ⟨(combine_dedup_db_priority _ _ []).1,
    (combine_dedup_db_priority
        [{ title := "Python Developer", company := "Acme", location := "Pune",
           description := "stored" }]
        [{ title := "Python Developer", company := "Acme", location := "Pune",
           description := "scraped" }] []).2.2
      { title := "Python Developer", company := "Acme", location := "Pune",
        description := "stored" } (by decide)
      { title := "Python Developer", company := "Acme", location := "Pune",
        description := "stored", source_type := some "database" } (by decide) (by decide)⟩

/-! ## Claim C10: database records keep their stored score; only scraped
records are re-scored; ordering is by the `get("relevance_score", 0)` key -/

/-- C10.  Every record in the combined output is either a database record
with only `source_type` stamped — its `relevance_score` (possibly absent) is
exactly the one carried by the stored row — or a scraped record whose
`relevance_score` was overwritten with the coordinator's keyword formula; and
the output is in descending order of `relevance_score` with an absent score
read as 0 by the sort key. -/
theorem combined_scores_provenance (db_jobs scraping_jobs : List Job)
    (keywords : List String) :
    (∀ j ∈ combineAndRankJobs db_jobs scraping_jobs keywords,
      (∃ d ∈ db_jobs, j = { d with source_type := some "database" }) ∨
      (∃ s ∈ scraping_jobs,
        j = { s with
              source_type := some "live_scraping",
              relevance_score := some (calculateRelevance s keywords) })) ∧
    List.Sorted (fun a b : Job => b.relevance_score.getD 0 ≤ a.relevance_score.getD 0)
      (combineAndRankJobs db_jobs scraping_jobs keywords) := by
  constructor
  · intro j hj
    have hperm : List.Perm (combineAndRankJobs db_jobs scraping_jobs keywords)
        ((addUnique markDatabase db_jobs []).1 ++
          (addUnique (markScraped keywords) scraping_jobs
            (addUnique markDatabase db_jobs []).2).1) :=
      List.perm_insertionSort _ _
    rcases List.mem_append.mp (hperm.mem_iff.mp hj) with hjA | hjB
    · obtain ⟨j0, hj0, rfl⟩ := addUnique_provenance markDatabase db_jobs [] j hjA
      exact Or.inl ⟨j0, hj0, rfl⟩
    · obtain ⟨j0, hj0, rfl⟩ :=
        addUnique_provenance (markScraped keywords) scraping_jobs _ j hjB
      exact Or.inr ⟨j0, hj0, rfl⟩
  · haveI htot : IsTotal Job
        (fun a b : Job => b.relevance_score.getD 0 ≤ a.relevance_score.getD 0) :=
      ⟨fun a b => le_total (b.relevance_score.getD 0) (a.relevance_score.getD 0)⟩
    haveI htrans : IsTrans Job
        (fun a b : Job => b.relevance_score.getD 0 ≤ a.relevance_score.getD 0) :=
      ⟨fun a b c hab hbc => le_trans hbc hab⟩
    exact List.sorted_insertionSort _ _

/-- Concrete instantiation of C10: a database record carrying stored score 2
appears in the output with that very score field, untouched by the keyword
formula. -/
theorem combined_scores_provenance_witness :
    (∃ d ∈ [({ title := "D", relevance_score := some 2 } : Job)],
      ({ title := "D", relevance_score := some 2, source_type := some "database" } : Job) =
        { d with source_type := some "database" }) ∨
    (∃ s ∈ [({ title := "S" } : Job)],
      ({ title := "D", relevance_score := some 2, source_type := some "database" } : Job) =
        { s with
          source_type := some "live_scraping",
          relevance_score := some (calculateRelevance s []) }) :=
  (combined_scores_provenance [{ title := "D", relevance_score := some 2 }]
      [{ title := "S" }] []).1
    { title := "D", relevance_score := some 2, source_type := some "database" } (by decide)

/-! ## Claim C6: the two relevance-scoring formulas -/

/-- A fold whose step adds a per-element weight is the sum of the weights. -/
theorem foldl_add_weight (f : ℚ → String → ℚ) (w : String → ℚ)
    (hstep : ∀ s k, f s k = s + w k) :
    ∀ (l : List String) (a : ℚ), l.foldl f a = a + (l.map w).sum := by
  intro l
  induction l with
  | nil => intro a; simp
  | cons x xs ih =>
    intro a
    rw [List.foldl_cons, hstep, ih, List.map_cons, List.sum_cons]
    ring

/-- C6.  The hybrid coordinator's score is the plain sum over keywords of
3.0 / 1.5 / 1.0 for case-insensitive title / description / company hits plus
the 7-day (+1.0) / 30-day (+0.5) recency bonus, with no normalization; the
single-source agent's score uses weights 3.0 / 1.0 / 0.5 and divides the
total by the keyword count; and on the spec's example (keywords
["python", "django"], title "Python Developer", description "Django
development role", company "Acme", no timestamp) the hybrid score is 4.5. -/
theorem relevance_scoring_formulas :
    (∀ (job : Job) (keywords : List String),
      calculateRelevance job keywords =
        (keywords.map (fun k =>
          (if strContains (pyLower job.title) (pyLower k) then (3 : ℚ) else 0) +
          (if strContains (pyLower job.description) (pyLower k) then (1.5 : ℚ) else 0) +
          (if strContains (pyLower job.company) (pyLower k) then (1 : ℚ) else 0))).sum +
        (match job.days_old with
          | some d => if d ≤ 7 then (1 : ℚ) else if d ≤ 30 then (0.5 : ℚ) else 0
          | none => 0)) ∧
    (∀ (job : Job) (keywords : List String),
      agentCalculateRelevance job keywords =
        (keywords.map (fun k =>
          (if strContains (pyLower job.title) k then (3 : ℚ) else 0) +
          (if strContains (pyLower job.description) k then (1 : ℚ) else 0) +
          (if strContains (pyLower job.company) k then (0.5 : ℚ) else 0))).sum /
          keywords.length) ∧
    calculateRelevance
      { title := "Python Developer", company := "Acme",
        description := "Django development role" } ["python", "django"] = 4.5 := by
  refine ⟨?_, ?_, ?_⟩
  · intro job keywords
    unfold calculateRelevance
    dsimp only
    rw [foldl_add_weight _
      (fun k =>
        (if strContains (pyLower job.title) (pyLower k) then (3 : ℚ) else 0) +
        (if strContains (pyLower job.description) (pyLower k) then (1.5 : ℚ) else 0) +
        (if strContains (pyLower job.company) (pyLower k) then (1 : ℚ) else 0))]
    · rcases hdays : job.days_old with _ | d <;> simp only [hdays] <;> [skip; split_ifs] <;>
        ring
    · intro s k
      dsimp only
      split_ifs <;> ring
  · intro job keywords
    rcases keywords with _ | ⟨k, ks⟩
    · simp [agentCalculateRelevance]
    · unfold agentCalculateRelevance
      dsimp only
      rw [foldl_add_weight _
        (fun k =>
          (if strContains (pyLower job.title) k then (3 : ℚ) else 0) +
          (if strContains (pyLower job.description) k then (1 : ℚ) else 0) +
          (if strContains (pyLower job.company) k then (0.5 : ℚ) else 0))]
      · simp
      · intro s k
        dsimp only
        split_ifs <;> ring
  · simp +decide [calculateRelevance, strContains, pyLower]
    norm_num

/-! ## Claim C7: the scrape trigger policy and the reported result fields -/

/-- Database rows for C7's end-to-end example: three records, pairwise
distinct dedup keys, no "react" hits. -/
def exampleDbJobs : List Job :=
  [{ title := "Backend Dev", company := "A", location := "Pune" },
   { title := "Data Engineer", company := "B", location := "Pune" },
   { title := "Platform Eng", company := "C", location := "Pune" }]

/-- Scraped records for C7's end-to-end example: four records, none
duplicating each other or the database rows. -/
def exampleScrapedJobs : List Job :=
  [{ title := "Sales Lead", company := "D", location := "Pune" },
   { title := "QA Analyst", company := "E", location := "Pune" },
   { title := "SRE", company := "F", location := "Pune" },
   { title := "PM", company := "G", location := "Pune" }]

/-- C7's example request: keywords ["react"], `scrape_threshold = 10`, all
other fields the dataclass defaults. -/
def exampleRequest : HybridSearchRequest :=
  { keywords := ["react"], scrape_threshold := 10 }

/-- C7.  `search_jobs_intelligently` triggers the secondary scrape iff
`include_scraping` is set and the database returned strictly fewer records
than `scrape_threshold`; when not triggered the response does not depend on
the scraper at all; the response reports `success`, `total_found` equal to
the length of the returned combined list, `database_count`, the triggered
flag, `scraping_count` equal to the scraped list's length, and a
`source_distribution` keyed by each record's `source_type`; on the
end-to-end example (threshold 10, 3 database rows, 4 non-duplicate scraped
rows) it yields 7 combined records distributed as 3 database + 4 scraped,
and with 15 database rows the scrape is not invoked. -/
theorem hybrid_search_spec (request : HybridSearchRequest) (db_jobs : List Job)
    (scrape : ScrapeOutcome) :
    ((searchJobsIntelligently request db_jobs scrape).scraping_triggered = true ↔
      (request.include_scraping = true ∧ db_jobs.length < request.scrape_threshold)) ∧
    (request.include_scraping = false ∨ request.scrape_threshold ≤ db_jobs.length →
      ∀ scrape' : ScrapeOutcome,
        searchJobsIntelligently request db_jobs scrape =
          searchJobsIntelligently request db_jobs scrape') ∧
    (searchJobsIntelligently request db_jobs scrape).success = true ∧
    (searchJobsIntelligently request db_jobs scrape).total_found =
      (searchJobsIntelligently request db_jobs scrape).jobs.length ∧
    (searchJobsIntelligently request db_jobs scrape).database_count = db_jobs.length ∧
    (∀ jobs, scrape = .success jobs →
      (searchJobsIntelligently request db_jobs scrape).scraping_triggered = true →
      (searchJobsIntelligently request db_jobs scrape).scraping_count = jobs.length ∧
      (searchJobsIntelligently request db_jobs scrape).jobs =
        (let combined := combineAndRankJobs db_jobs jobs request.keywords
         if request.max_results < combined.length then combined.take request.max_results
         else combined)) ∧
    ((searchJobsIntelligently request db_jobs scrape).jobs ≠ [] →
      (searchJobsIntelligently request db_jobs scrape).source_distribution =
        some (sourceDistribution (searchJobsIntelligently request db_jobs scrape).jobs)) ∧
    (searchJobsIntelligently exampleRequest exampleDbJobs
        (.success exampleScrapedJobs)).total_found = 7 ∧
    ((searchJobsIntelligently exampleRequest exampleDbJobs
        (.success exampleScrapedJobs)).source_distribution.getD []).lookup "database" =
      some 3 ∧
    ((searchJobsIntelligently exampleRequest exampleDbJobs
        (.success exampleScrapedJobs)).source_distribution.getD []).lookup "live_scraping" =
      some 4 ∧
    (searchJobsIntelligently exampleRequest (List.replicate 15 { title := "T" })
        scrape).scraping_triggered = false := by
  refine ⟨?_, ?_, rfl, rfl, rfl, ?_, ?_, by decide, by decide, by decide, ?_⟩
  · simp [searchJobsIntelligently]
  · intro h scrape'
    have hs : (request.include_scraping &&
        decide (db_jobs.length < request.scrape_threshold)) = false := by
      rcases h with h | h
      · simp [h]
      · simp [Nat.not_lt.mpr h]
    simp [searchJobsIntelligently, hs]
  · rintro jobs rfl htrig
    have hb : (request.include_scraping &&
        decide (db_jobs.length < request.scrape_threshold)) = true := htrig
    constructor
    · simp [searchJobsIntelligently, hb]
    · simp [searchJobsIntelligently, hb]
  · intro hne
    have hb : (searchJobsIntelligently request db_jobs scrape).jobs.isEmpty = false :=
      List.isEmpty_eq_false.mpr hne
    simp only [searchJobsIntelligently] at hb ⊢
    simp only [hb, Bool.false_eq_true, if_false]
  · have : (exampleRequest.include_scraping &&
        decide ((List.replicate 15 ({ title := "T" } : Job)).length <
          exampleRequest.scrape_threshold)) = false := by decide
    exact this

/-- Concrete instantiation of C7: with `include_scraping = false` the
response is identical whatever the scraper would have done — it is not
consulted. -/
theorem hybrid_search_spec_witness :
    searchJobsIntelligently { keywords := ["react"], include_scraping := false }
        exampleDbJobs (.success exampleScrapedJobs) =
      searchJobsIntelligently { keywords := ["react"], include_scraping := false }
        exampleDbJobs (.raised "network down") :=
  (hybrid_search_spec { keywords := ["react"], include_scraping := false }
      exampleDbJobs (.success exampleScrapedJobs)).2.1 (Or.inl rfl) _

/-! ## Container-resolution lemmas shared by the DI claims -/

/-- Dependency resolution never touches the registry. -/
theorem resolveDepsWith_services (res : ServiceContainer → String → ResolveRes)
    (hres : ∀ c cap i c', res c cap = .ok i c' → c'.services = c.services) :
    ∀ (l : List String) (c c' : ServiceContainer),
      resolveDepsWith res c l = .ok c' → c'.services = c.services := by
  intro l
  induction l with
  | nil =>
    intro c c' h
    simp only [resolveDepsWith] at h
    cases h
    rfl
  | cons dep rest ih =>
    intro c c' h
    simp only [resolveDepsWith] at h
    rcases hres1 : res c dep with ⟨i, c₁⟩ | e | _ <;> rw [hres1] at h
    · exact (ih c₁ c' h).trans (hres c dep i c₁ hres1)
    · rcases e <;> simp at h
    · simp at h

/-- Instance creation never touches the registry. -/
theorem createInstanceWith_services (res : ServiceContainer → String → ResolveRes)
    (hres : ∀ c cap i c', res c cap = .ok i c' → c'.services = c.services)
    (c : ServiceContainer) (d : ServiceDescriptor) (i : ℕ) (c' : ServiceContainer) :
    createInstanceWith res c d = .ok i c' → c'.services = c.services := by
  intro h
  rcases d with ⟨lifetime, impl⟩
  rcases impl with deps | j
  · simp only [createInstanceWith] at h
    rcases hdep : resolveDepsWith res c deps with c₁ | e | _ <;> rw [hdep] at h
    · cases h
      exact resolveDepsWith_services res hres deps c c₁ hdep
    · simp at h
    · simp at h
  · simp only [createInstanceWith] at h
    cases h
    rfl

/-- `get_required_service` never touches the registry. -/
theorem getRequiredServiceF_services :
    ∀ (fuel : ℕ) (c : ServiceContainer) (cap : String) (i : ℕ) (c' : ServiceContainer),
      getRequiredServiceF fuel c cap = .ok i c' → c'.services = c.services := by
  intro fuel
  induction fuel with
  | zero => intro c cap i c' h; simp [getRequiredServiceF] at h
  | succ fuel ih =>
    intro c cap i c' h
    simp only [getRequiredServiceF] at h
    rcases hlook : c.services.lookup cap with _ | d <;> rw [hlook] at h
    · simp at h
    · rcases d with ⟨lifetime, impl⟩
      rcases lifetime with _ | _ | _
      · simp only at h
        rcases hcache : c.singletons.lookup cap with _ | j <;> rw [hcache] at h
        · rcases hcr : createInstanceWith (getRequiredServiceF fuel) c ⟨.singleton, impl⟩
            with ⟨i₀, c₀⟩ | e | _ <;> rw [hcr] at h <;> cases h
          simpa using createInstanceWith_services _ ih c _ _ _ hcr
        · cases h
          rfl
      · simp only at h
        exact createInstanceWith_services _ ih c _ i c' h
      · simp only at h
        rcases hcache : c.scoped_instances.lookup cap with _ | j <;> rw [hcache] at h
        · rcases hcr : createInstanceWith (getRequiredServiceF fuel) c ⟨.scoped, impl⟩
            with ⟨i₀, c₀⟩ | e | _ <;> rw [hcr] at h <;> cases h
          simpa using createInstanceWith_services _ ih c _ _ _ hcr
        · cases h
          rfl

/-- Dependency resolution only ever allocates: `nextId` never decreases. -/
theorem resolveDepsWith_nextId (res : ServiceContainer → String → ResolveRes)
    (hres : ∀ c cap i c', res c cap = .ok i c' → c.nextId ≤ c'.nextId) :
    ∀ (l : List String) (c c' : ServiceContainer),
      resolveDepsWith res c l = .ok c' → c.nextId ≤ c'.nextId := by
  intro l
  induction l with
  | nil =>
    intro c c' h
    simp only [resolveDepsWith] at h
    cases h
    exact le_refl _
  | cons dep rest ih =>
    intro c c' h
    simp only [resolveDepsWith] at h
    rcases hres1 : res c dep with ⟨i, c₁⟩ | e | _ <;> rw [hres1] at h
    · exact le_trans (hres c dep i c₁ hres1) (ih c₁ c' h)
    · rcases e <;> simp at h
    · simp at h

/-- Instance creation only ever allocates. -/
theorem createInstanceWith_nextId (res : ServiceContainer → String → ResolveRes)
    (hres : ∀ c cap i c', res c cap = .ok i c' → c.nextId ≤ c'.nextId)
    (c : ServiceContainer) (d : ServiceDescriptor) (i : ℕ) (c' : ServiceContainer) :
    createInstanceWith res c d = .ok i c' → c.nextId ≤ c'.nextId := by
  intro h
  rcases d with ⟨lifetime, impl⟩
  rcases impl with deps | j
  · simp only [createInstanceWith] at h
    rcases hdep : resolveDepsWith res c deps with c₁ | e | _ <;> rw [hdep] at h
    · cases h
      have := resolveDepsWith_nextId res hres deps c c₁ hdep
      simp only
      omega
    · simp at h
    · simp at h
  · simp only [createInstanceWith] at h
    cases h
    exact le_refl _

/-- `get_required_service` only ever allocates. -/
theorem getRequiredServiceF_nextId :
    ∀ (fuel : ℕ) (c : ServiceContainer) (cap : String) (i : ℕ) (c' : ServiceContainer),
      getRequiredServiceF fuel c cap = .ok i c' → c.nextId ≤ c'.nextId := by
  intro fuel
  induction fuel with
  | zero => intro c cap i c' h; simp [getRequiredServiceF] at h
  | succ fuel ih =>
    intro c cap i c' h
    simp only [getRequiredServiceF] at h
    rcases hlook : c.services.lookup cap with _ | d <;> rw [hlook] at h
    · simp at h
    · rcases d with ⟨lifetime, impl⟩
      rcases lifetime with _ | _ | _
      · simp only at h
        rcases hcache : c.singletons.lookup cap with _ | j <;> rw [hcache] at h
        · rcases hcr : createInstanceWith (getRequiredServiceF fuel) c ⟨.singleton, impl⟩
            with ⟨i₀, c₀⟩ | e | _ <;> rw [hcr] at h <;> cases h
          simpa using createInstanceWith_nextId _ ih c _ _ _ hcr
        · cases h
          exact le_refl _
      · simp only at h
        exact createInstanceWith_nextId _ ih c _ i c' h
      · simp only at h
        rcases hcache : c.scoped_instances.lookup cap with _ | j <;> rw [hcache] at h
        · rcases hcr : createInstanceWith (getRequiredServiceF fuel) c ⟨.scoped, impl⟩
            with ⟨i₀, c₀⟩ | e | _ <;> rw [hcr] at h <;> cases h
          simpa using createInstanceWith_nextId _ ih c _ _ _ hcr
        · cases h
          exact le_refl _

/-- After a successful singleton resolution, the produced instance sits in
the singleton cache of the resulting container. -/
theorem getRequiredServiceF_singleton_cached (fuel : ℕ) (c : ServiceContainer)
    (cap : String) (d : ServiceDescriptor) (i : ℕ) (c₁ : ServiceContainer)
    (hlook : c.services.lookup cap = some d) (hlife : d.lifetime = .singleton)
    (hok : getRequiredServiceF (fuel + 1) c cap = .ok i c₁) :
    c₁.singletons.lookup cap = some i := by
  simp only [getRequiredServiceF, hlook] at hok
  rcases d with ⟨lifetime, impl⟩
  cases hlife
  simp only at hok
  rcases hcache : c.singletons.lookup cap with _ | j <;> rw [hcache] at hok
  · rcases hcr : createInstanceWith (getRequiredServiceF fuel) c ⟨.singleton, impl⟩
      with ⟨i₀, c₀⟩ | e | _ <;> rw [hcr] at hok <;> cases hok
    simp [List.lookup]
  · cases hok
    exact hcache

/-! ## Claim C8: container lifetime semantics -/

/-- C8.  For class-implemented capabilities: a SINGLETON registration that
resolves successfully returns the identical cached instance (and identical
container state) on every subsequent `get_required_service`; a TRANSIENT
class registration yields a distinct freshly-constructed instance on each
successful resolution; resolving an unregistered capability raises the
"is not registered" `KeyError` while the optional `get_service` returns
`None` instead. -/
theorem service_container_lifetimes :
    (∀ (fuel fuel' : ℕ) (c : ServiceContainer) (cap : String) (d : ServiceDescriptor)
      (i : ℕ) (c₁ : ServiceContainer),
      c.services.lookup cap = some d → d.lifetime = .singleton →
      getRequiredServiceF (fuel + 1) c cap = .ok i c₁ →
      getRequiredServiceF (fuel' + 1) c₁ cap = .ok i c₁) ∧
    (∀ (fuel fuel' : ℕ) (c : ServiceContainer) (cap : String) (d : ServiceDescriptor)
      (deps : List String) (i₁ i₂ : ℕ) (c₁ c₂ : ServiceContainer),
      c.services.lookup cap = some d → d.lifetime = .transient → d.impl = .cls deps →
      getRequiredServiceF (fuel + 1) c cap = .ok i₁ c₁ →
      getRequiredServiceF (fuel' + 1) c₁ cap = .ok i₂ c₂ →
      i₁ ≠ i₂) ∧
    (∀ (fuel : ℕ) (c : ServiceContainer) (cap : String),
      c.services.lookup cap = none →
      getRequiredServiceF (fuel + 1) c cap =
        .err (.keyError ("Service " ++ cap ++ " is not registered")) ∧
      getServiceF (fuel + 1) c cap = .ok none c) := by
  refine ⟨?_, ?_, ?_⟩
  · intro fuel fuel' c cap d i c₁ hlook hlife hok
    have hsvc : c₁.services = c.services :=
      getRequiredServiceF_services (fuel + 1) c cap i c₁ hok
    have hcache := getRequiredServiceF_singleton_cached fuel c cap d i c₁ hlook hlife hok
    simp [getRequiredServiceF, hsvc, hlook, hlife, hcache]
  · intro fuel fuel' c cap d deps i₁ i₂ c₁ c₂ hlook hlife himpl hok1 hok2
    have hsvc : c₁.services = c.services :=
      getRequiredServiceF_services (fuel + 1) c cap i₁ c₁ hok1
    rcases d with ⟨lifetime, impl⟩
    cases hlife
    cases himpl
    simp only [getRequiredServiceF, hlook] at hok1
    simp only [getRequiredServiceF, hsvc, hlook] at hok2
    simp only [createInstanceWith] at hok1 hok2
    rcases hdep1 : resolveDepsWith (getRequiredServiceF fuel) c deps
      with c₁' | e | _ <;> rw [hdep1] at hok1 <;> cases hok1
    rcases hdep2 : resolveDepsWith (getRequiredServiceF fuel') _ deps
      with c₂' | e | _ <;> rw [hdep2] at hok2 <;> cases hok2
    have hmono := resolveDepsWith_nextId _ (getRequiredServiceF_nextId fuel') deps _ c₂' hdep2
    simp only at hmono ⊢
    omega
  · intro fuel c cap hnone
    refine ⟨?_, ?_⟩
    · simp [getRequiredServiceF, hnone]
    · simp [getServiceF, getRequiredServiceF, hnone]

/-- Concrete instantiation of C8: a singleton class capability "A" already
resolved once (instance 0, cached) resolves again to the identical instance
with the container untouched. -/
theorem service_container_lifetimes_witness :
    getRequiredServiceF 1 ⟨[("A", ⟨.singleton, .cls []⟩)], [("A", 0)], [], 1⟩ "A" =
      .ok 0 ⟨[("A", ⟨.singleton, .cls []⟩)], [("A", 0)], [], 1⟩ :=
  service_container_lifetimes.1 0 0 ⟨[("A", ⟨.singleton, .cls []⟩)], [], [], 0⟩ "A"
    ⟨.singleton, .cls []⟩ 0 ⟨[("A", ⟨.singleton, .cls []⟩)], [("A", 0)], [], 1⟩
    (by decide) rfl (by decide)

/-! ## Claim C9: cyclic dependencies -/

/-- C9 (evaluation of the code on the failing input).  Registering a
capability "A" as a class whose constructor requires "A" itself makes every
resolution recurse without bound: for every finite recursion-depth budget the
resolution exhausts the budget — it neither succeeds nor raises any
cycle-diagnosing error. -/
theorem cyclic_dependency_never_resolves :
    ∀ (fuel : ℕ) (c0 : ServiceContainer),
      getRequiredServiceF fuel (c0.register "A" (.cls ["A"]) .transient) "A" =
        .outOfFuel := by
  intro fuel
  induction fuel with
  | zero => intro c0; rfl
  | succ fuel ih =>
    intro c0
    have hlook : ((c0.register "A" (.cls ["A"]) .transient).services.lookup "A") =
        some ⟨.transient, .cls ["A"]⟩ := by
      simp [ServiceContainer.register, List.lookup]
    simp [getRequiredServiceF, hlook, createInstanceWith, resolveDepsWith, ih c0]

end HireAI
